import Mathlib

/-!
Verification of the AWESim_SOSS / awesimsoss time-series-observation simulator.

This file gives a shallow embedding, over exact rationals, of the parts of
`AWESim_SOSS/sim2D/awesim.py` and `awesimsoss/awesim.py` that the verified
properties talk about: the per-wavelength light-curve synthesis
(`lambda_lightcurve`), the exposure time axis (`get_frame_times`), the
rate-to-counts frame scaling, the reference-pixel border pass
(`add_refpix`) together with the SUBSTRIP96 trim, the noise-injection
orchestration (`add_noise`), the star-spectrum validation (`_check_star`),
and the `run_simulation` state machine of the `TSO` class.

Floating-point values of the source are embedded as exact rationals; numpy
arrays as lists; the external collaborators (batman transit models, webbpsf,
the `generate_darks` and `make_trace` helper modules that ship next to the
embedded files) appear as explicit function parameters, so every theorem
quantifies over their behaviour.
-/

namespace AwesimSOSS

/-- Embedding of `np.interp(x, xp, fp, left, right)` for an increasing grid,
with the grid and values zipped into one list of pairs.  Outside the grid the
`left` / `right` clamp values are returned; inside, linear interpolation. -/
def np_interp (x : ℚ) : List (ℚ × ℚ) → ℚ → ℚ → ℚ
  | [], _, _ => 0
  | [(x0, y0)], left, right =>
      if x < x0 then left else if x0 < x then right else y0
  | (x0, y0) :: (x1, y1) :: rest, left, right =>
      if x < x0 then left
      else if x ≤ x1 then y0 + (y1 - y0) * (x - x0) / (x1 - x0)
      else np_interp x ((x1, y1) :: rest) left right

/-- Embedding of `np.nanmin` on a (NaN-free) list of rationals. -/
def np_nanmin : List ℚ → ℚ
  | [] => 0
  | x :: xs => xs.foldl min x

/-- The constant `503411665111.4543` of `lambda_lightcurve`: the factor
`1/(h*c)` in units of `1/erg/um` used to convert energy flux density to
photon flux density. -/
def pfd_const : ℚ := 5034116651114543 / 10000

/-- Lower edge `2.36989` um of the F277W passband hard-coded in
`lambda_lightcurve`. -/
def f277w_min : ℚ := 236989 / 100000

/-- Upper edge `3.22972` um of the F277W passband hard-coded in
`lambda_lightcurve`. -/
def f277w_max : ℚ := 322972 / 100000

/-- The background test of `lambda_lightcurve` (sim2D module, lines 362-367):
a pixel is background when its psf position is outside the trace radius, the
wavelength is below the minimum of the star's wavelength grid, or, with the
F277W filter, the wavelength lies outside the hard-coded passband. -/
def is_background (wavelength psf_loc trace_radius : ℚ)
    (star : List (ℚ × ℚ)) (filt : String) : Bool :=
  decide (trace_radius < psf_loc) || decide (psf_loc < -trace_radius)
  || decide (wavelength < np_nanmin (star.map Prod.fst))
  || (decide (filt = "F277W") && decide (wavelength < f277w_min))
  || (decide (filt = "F277W") && decide (f277w_max < wavelength))

/-- The non-background arm of `lambda_lightcurve` up to (and excluding) the
final noise-floor step: interpolate the stellar energy flux density at the
wavelength, convert to photon flux density (factor `wavelength * pfd_const`),
convert to ADU/s (factor `pfd2adu`), expand over the time axis, scale by the
batman transit light curve when a planet is configured, then by the spectral
response and by the psf position.  The batman model evaluated on the time
axis is the external collaborator, passed in as the list `lightcurve`. -/
def lambda_lightcurve_prefloor (wavelength response psf_loc pfd2adu : ℚ)
    (star : List (ℚ × ℚ)) (planetPresent : Bool)
    (lightcurve time : List ℚ) : List ℚ :=
  let flux0 := np_interp wavelength star 0 0
  let flux0 := flux0 * (wavelength * pfd_const)
  let flux0 := flux0 * pfd2adu
  let flux := List.replicate time.length flux0
  let flux := if planetPresent then List.zipWith (· * ·) flux lightcurve else flux
  let flux := flux.map (· * response)
  flux.map (· * psf_loc)

/-- The final noise-floor step of `lambda_lightcurve`:
`flux[flux < floor] += floor`, i.e. every sample strictly below the floor is
increased by the floor. -/
def floor_step (floor : ℚ) (flux : List ℚ) : List ℚ :=
  flux.map (fun f => if f < floor then f + floor else f)

/-- Embedding of `lambda_lightcurve` (sim2D module): background pixels get
the constant noise floor repeated over the time axis, every other pixel gets
the scaled flux time series followed by the noise-floor step. -/
def lambda_lightcurve (wavelength response psf_loc pfd2adu : ℚ)
    (star : List (ℚ × ℚ)) (planetPresent : Bool)
    (lightcurve time : List ℚ) (filt : String)
    (trace_radius floor : ℚ) : List ℚ :=
  if is_background wavelength psf_loc trace_radius star filt then
    List.replicate time.length floor
  else
    floor_step floor
      (lambda_lightcurve_prefloor wavelength response psf_loc pfd2adu star
        planetPresent lightcurve time)

lemma foldl_min_gt {w : ℚ} : ∀ (xs : List ℚ) (x : ℚ), w < x →
    (∀ y ∈ xs, w < y) → w < xs.foldl min x := by
  intro xs
  induction xs with
  | nil => intro x hx _; simpa using hx
  | cons z zs ih =>
    intro x hx hxs
    simp only [List.foldl_cons]
    exact ih (min x z) (lt_min hx (hxs z (by simp)))
      (fun y hy => hxs y (by simp [hy]))

lemma np_nanmin_gt {w : ℚ} {l : List ℚ} (h : ∀ y ∈ l, w < y) (hl : l ≠ []) :
    w < np_nanmin l := by
  match l with
  | [] => exact absurd rfl hl
  | x :: xs =>
    exact foldl_min_gt xs x (h x (by simp)) (fun y hy => h y (by simp [hy]))

lemma np_interp_of_forall_lt {w : ℚ} : ∀ {l : List (ℚ × ℚ)},
    (∀ p ∈ l, p.1 < w) → np_interp w l 0 0 = 0 := by
  intro l
  induction l with
  | nil => intro _; rfl
  | cons p tl ih =>
    intro h
    obtain ⟨x0, y0⟩ := p
    match tl with
    | [] =>
      have h0 : x0 < w := h (x0, y0) (by simp)
      simp [np_interp, not_lt.mpr h0.le, h0]
    | (x1, y1) :: rest =>
      have h0 : x0 < w := h (x0, y0) (by simp)
      have h1 : x1 < w := h (x1, y1) (by simp)
      simp only [np_interp, if_neg (not_lt.mpr h0.le), if_neg (not_le.mpr h1)]
      exact ih (fun q hq => h q (by simp [hq]))

lemma zipWith_mul_replicate_zero : ∀ (l : List ℚ) (n : ℕ), l.length = n →
    List.zipWith (· * ·) (List.replicate n (0 : ℚ)) l = List.replicate n 0 := by
  intro l
  induction l with
  | nil => intro n hn; simp [← hn]
  | cons a tl ih =>
    intro n hn
    match n, hn with
    | (m + 1), hn =>
      simp only [List.replicate_succ, List.zipWith_cons_cons, zero_mul,
        List.cons.injEq, true_and]
      exact ih m (by simpa using hn)

lemma floor_step_replicate_zero {floor : ℚ} (hfloor : 0 ≤ floor) (n : ℕ) :
    floor_step floor (List.replicate n 0) = List.replicate n floor := by
  simp only [floor_step, List.map_replicate]
  rcases lt_or_eq_of_le hfloor with h | h
  · simp [h]
  · simp [← h]

/-- C1: For a wavelength outside the star's spectral range (below its
minimum or above its maximum wavelength), and, with the F277W filter, also
for a wavelength outside the narrow passband, `lambda_lightcurve` returns
the constant noise floor at every timestamp — the result does not depend on
the psf position, the spectral response, or the transit model. -/
theorem lambda_lightcurve_background_floor
    (wavelength response psf_loc pfd2adu : ℚ) (star : List (ℚ × ℚ))
    (planetPresent : Bool) (lightcurve time : List ℚ) (filt : String)
    (trace_radius floor : ℚ)
    (hstar : star ≠ [])
    (hlen : lightcurve.length = time.length)
    (hfloor : 0 ≤ floor)
    (hout : (∀ p ∈ star, wavelength < p.1) ∨ (∀ p ∈ star, p.1 < wavelength)
      ∨ (filt = "F277W" ∧ (wavelength < f277w_min ∨ f277w_max < wavelength))) :
    lambda_lightcurve wavelength response psf_loc pfd2adu star planetPresent
        lightcurve time filt trace_radius floor
      = List.replicate time.length floor := by
  by_cases hb : is_background wavelength psf_loc trace_radius star filt = true
  · simp [lambda_lightcurve, hb]
  · -- the background branch is not taken, so the wavelength must be above the
    -- star's maximum; the interpolation then clamps to zero and the floor
    -- step raises every zero sample to the floor
    rw [lambda_lightcurve, if_neg hb]
    simp only [is_background, Bool.or_eq_true, decide_eq_true_eq,
      Bool.and_eq_true, not_or] at hb
    obtain ⟨⟨⟨⟨-, -⟩, hmin⟩, hf1⟩, hf2⟩ := hb
    have habove : ∀ p ∈ star, p.1 < wavelength := by
      rcases hout with h | h | ⟨hfilt, hpass⟩
      · exfalso
        exact hmin (np_nanmin_gt (by
          intro y hy
          obtain ⟨p, hp, hpy⟩ := List.mem_map.mp hy
          exact hpy ▸ h p hp) (by simpa using hstar))
      · exact h
      · exfalso
        rcases hpass with h | h
        · exact hf1 ⟨hfilt, h⟩
        · exact hf2 ⟨hfilt, h⟩
    have hzero : np_interp wavelength star 0 0 = 0 :=
      np_interp_of_forall_lt habove
    simp only [lambda_lightcurve_prefloor, hzero, zero_mul]
    rcases planetPresent with _ | _
    · simp only [Bool.false_eq_true, if_false, List.map_replicate, zero_mul]
      exact floor_step_replicate_zero hfloor _
    · simp only [if_true]
      rw [zipWith_mul_replicate_zero lightcurve time.length hlen]
      simp only [List.map_replicate, zero_mul]
      exact floor_step_replicate_zero hfloor _

/-- Witness for C1 at a concrete input: star defined on wavelength 1 um,
queried at 0 um, floor 2; the returned series is the constant floor. -/
theorem lambda_lightcurve_background_floor_witness :
    lambda_lightcurve 0 1 1 1 [(1, 2)] false [1] [0] "CLEAR" 25 2
      = List.replicate 1 2 :=
  lambda_lightcurve_background_floor 0 1 1 1 [(1, 2)] false [1] [0] "CLEAR"
    25 2 (by simp) rfl (by norm_num) (Or.inl (by intro p hp; simp at hp; simp [hp]))

lemma mem_zipWith_mul {l1 l2 : List ℚ} {x : ℚ}
    (hx : x ∈ List.zipWith (· * ·) l1 l2) :
    ∃ a ∈ l1, ∃ b ∈ l2, x = a * b := by
  induction l1 generalizing l2 with
  | nil => simp at hx
  | cons a t ih =>
    match l2 with
    | [] => simp at hx
    | b :: t2 =>
      simp only [List.zipWith_cons_cons, List.mem_cons] at hx
      rcases hx with h | h
      · exact ⟨a, by simp, b, by simp, h⟩
      · obtain ⟨a', ha', b', hb', hx'⟩ := ih h
        exact ⟨a', by simp [ha'], b', by simp [hb'], hx'⟩

lemma np_interp_nonneg {x : ℚ} : ∀ {l : List (ℚ × ℚ)},
    List.Chain' (fun p q : ℚ × ℚ => p.1 < q.1) l → (∀ p ∈ l, 0 ≤ p.2) →
    0 ≤ np_interp x l 0 0 := by
  intro l
  induction l with
  | nil => intro _ _; simp [np_interp]
  | cons p tl ih =>
    intro hs hy
    obtain ⟨x0, y0⟩ := p
    match tl with
    | [] =>
      simp only [np_interp]
      split_ifs
      · exact le_refl 0
      · exact le_refl 0
      · exact hy (x0, y0) (by simp)
    | (x1, y1) :: rest =>
      simp only [np_interp]
      split_ifs with h1 h2
      · exact le_refl 0
      · -- linear interpolation between two nonnegative values
        have hx0 : x0 ≤ x := not_lt.mp h1
        have hx1 : x ≤ x1 := h2
        have hd : (0 : ℚ) < x1 - x0 := by
          have := (List.chain'_cons.mp hs).1
          simp only at this
          linarith
        have hy0 : 0 ≤ y0 := hy (x0, y0) (by simp)
        have hy1 : 0 ≤ y1 := hy (x1, y1) (by simp)
        have hkey : 0 ≤ y0 * (x1 - x0) + (y1 - y0) * (x - x0) := by nlinarith
        have hrw : y0 + (y1 - y0) * (x - x0) / (x1 - x0)
            = (y0 * (x1 - x0) + (y1 - y0) * (x - x0)) / (x1 - x0) := by
          field_simp
        rw [hrw]
        exact div_nonneg hkey hd.le
      · exact ih (List.chain'_cons.mp hs).2 (fun q hq => hy q (by simp [hq]))

lemma prefloor_nonneg {wavelength response psf_loc pfd2adu : ℚ}
    {star : List (ℚ × ℚ)} {planetPresent : Bool} {lightcurve time : List ℚ}
    (hsorted : List.Chain' (fun p q : ℚ × ℚ => p.1 < q.1) star)
    (hflux : ∀ p ∈ star, 0 ≤ p.2)
    (hw : 0 ≤ wavelength) (hresp : 0 ≤ response) (hpsf : 0 ≤ psf_loc)
    (hpfd : 0 ≤ pfd2adu) (hlc : ∀ c ∈ lightcurve, 0 ≤ c) :
    ∀ f ∈ lambda_lightcurve_prefloor wavelength response psf_loc pfd2adu star
        planetPresent lightcurve time, 0 ≤ f := by
  intro f hf
  simp only [lambda_lightcurve_prefloor] at hf
  obtain ⟨g, hg, rfl⟩ := List.mem_map.mp hf
  obtain ⟨h, hh, rfl⟩ := List.mem_map.mp hg
  have hflux0 : 0 ≤ np_interp wavelength star 0 0 * (wavelength * pfd_const)
      * pfd2adu := by
    have hc : (0 : ℚ) ≤ pfd_const := by norm_num [pfd_const]
    exact mul_nonneg (mul_nonneg (np_interp_nonneg hsorted hflux)
      (mul_nonneg hw hc)) hpfd
  have hh0 : 0 ≤ h := by
    rcases planetPresent with _ | _
    · simp only [Bool.false_eq_true, if_false] at hh
      rw [List.eq_of_mem_replicate hh]
      exact hflux0
    · simp only [if_true] at hh
      obtain ⟨a, ha, b, hb, rfl⟩ := mem_zipWith_mul hh
      rw [List.eq_of_mem_replicate ha]
      exact mul_nonneg hflux0 (hlc b hb)
  exact mul_nonneg (mul_nonneg hh0 hresp) hpsf

/-- C2 counterexample: a non-background sample with pre-floor value 1 and
floor 2 is returned as 3 (the code adds the floor to sub-floor samples), not
bumped up *to* the floor 2. -/
theorem floor_bump_not_to_floor :
    lambda_lightcurve_prefloor 1 1 1 (10000 / 5034116651114543)
        [(1, 1), (2, 1)] false [1] [0] = [1]
    ∧ lambda_lightcurve 1 1 1 (10000 / 5034116651114543)
        [(1, 1), (2, 1)] false [1] [0] "CLEAR" 25 2 = [3]
    ∧ ((1 : ℚ) < 2 ∧ (3 : ℚ) ≠ 2) := by
  refine ⟨?_, ?_, by norm_num⟩
  · simp [lambda_lightcurve_prefloor, np_interp, pfd_const]
  · rw [lambda_lightcurve, if_neg (by decide)]
    have h1 : lambda_lightcurve_prefloor 1 1 1 (10000 / 5034116651114543)
        [(1, 1), (2, 1)] false [1] [0] = [1] := by
      simp [lambda_lightcurve_prefloor, np_interp, pfd_const]
    rw [h1]
    norm_num [floor_step]

/-- C2 (amended): the noise-floor step adds the floor to every sample below
it (it does not set them equal to the floor); consequently, whenever the
scaled samples are nonnegative — star flux, response, psf position,
conversion factors and transit light curve all nonnegative — every returned
sample is at least the floor, and strictly positive when the floor is. -/
theorem lambda_lightcurve_floor_lower_bound
    (wavelength response psf_loc pfd2adu : ℚ) (star : List (ℚ × ℚ))
    (planetPresent : Bool) (lightcurve time : List ℚ) (filt : String)
    (trace_radius floor : ℚ)
    (hsorted : List.Chain' (fun p q : ℚ × ℚ => p.1 < q.1) star)
    (hflux : ∀ p ∈ star, 0 ≤ p.2)
    (hw : 0 ≤ wavelength) (hresp : 0 ≤ response) (hpsf : 0 ≤ psf_loc)
    (hpfd : 0 ≤ pfd2adu) (hlc : ∀ c ∈ lightcurve, 0 ≤ c) :
    (∀ x ∈ lambda_lightcurve wavelength response psf_loc pfd2adu star
        planetPresent lightcurve time filt trace_radius floor, floor ≤ x)
    ∧ (0 < floor → ∀ x ∈ lambda_lightcurve wavelength response psf_loc pfd2adu
        star planetPresent lightcurve time filt trace_radius floor, 0 < x) := by
  have hmain : ∀ x ∈ lambda_lightcurve wavelength response psf_loc pfd2adu star
      planetPresent lightcurve time filt trace_radius floor, floor ≤ x := by
    intro x hx
    rw [lambda_lightcurve] at hx
    split_ifs at hx with hb
    · rw [List.eq_of_mem_replicate hx]
    · simp only [floor_step] at hx
      obtain ⟨f, hf, rfl⟩ := List.mem_map.mp hx
      have h0 : 0 ≤ f := prefloor_nonneg hsorted hflux hw hresp hpsf hpfd hlc f hf
      split_ifs with hlt
      · linarith
      · exact not_lt.mp hlt
  exact ⟨hmain, fun hpos x hx => lt_of_lt_of_le hpos (hmain x hx)⟩

/-- Witness for C2's amended theorem at the counterexample input: every
sample of the returned series is at least the floor 2 and positive. -/
theorem lambda_lightcurve_floor_lower_bound_witness :
    (∀ x ∈ lambda_lightcurve 1 1 1 (10000 / 5034116651114543)
        [(1, 1), (2, 1)] false [1] [0] "CLEAR" 25 2, (2 : ℚ) ≤ x)
    ∧ ((0 : ℚ) < 2 → ∀ x ∈ lambda_lightcurve 1 1 1 (10000 / 5034116651114543)
        [(1, 1), (2, 1)] false [1] [0] "CLEAR" 25 2, 0 < x) :=
  lambda_lightcurve_floor_lower_bound 1 1 1 (10000 / 5034116651114543)
    [(1, 1), (2, 1)] false [1] [0] "CLEAR" 25 2
    (List.chain'_cons.mpr ⟨by norm_num, List.chain'_singleton _⟩) (by decide)
    (by norm_num) (by norm_num) (by norm_num) (by norm_num)
    (by decide)

/-- The module-level `FRAME_TIMES` dictionary: seconds per frame for each
SOSS subarray. -/
def FRAME_TIMES (s : String) : ℚ :=
  if s = "SUBSTRIP96" then 2213 / 1000
  else if s = "SUBSTRIP256" then 5491 / 1000
  else if s = "FULL" then 10737 / 1000
  else 0

/-- The subarray names accepted by `get_frame_times`. -/
def SOSS_SUBARRAYS : List String := ["SUBSTRIP256", "SUBSTRIP96", "FULL"]

/-- The integration loop of `get_frame_times`: each integration contributes
`nresets + ngrps` raw frame times starting at the running clock `t`, of
which the first `nresets` (the reset frames) are dropped; the clock then
advances to one frame past the last raw time. -/
def frame_times_loop (ngrps nresets : ℕ) (ft : ℚ) : ℕ → ℚ → List ℚ
  | 0, _ => []
  | n + 1, t =>
      let times := (List.range (nresets + ngrps)).map (fun k : ℕ => t + (k : ℚ) * ft)
      times.drop nresets ++
        frame_times_loop ngrps nresets ft n
          (t + ((nresets + ngrps - 1 : ℕ) : ℚ) * ft + ft)

/-- Embedding of `get_frame_times(subarray, ngrps, nints, t0, nresets)`:
unknown subarrays fall back to SUBSTRIP256, then the per-integration loop
produces the exposure time axis. -/
def get_frame_times (subarray : String) (ngrps nints : ℕ) (t0 : ℚ)
    (nresets : ℕ) : List ℚ :=
  let sub := if subarray ∈ SOSS_SUBARRAYS then subarray else "SUBSTRIP256"
  frame_times_loop ngrps nresets (FRAME_TIMES sub) nints t0

lemma frame_times_loop_eq (g r : ℕ) (ft : ℚ) (hg : 1 ≤ g) :
    ∀ (n : ℕ) (t : ℚ), frame_times_loop g r ft n t
      = (List.range (n * g)).map
          (fun j => t + ((j + r * (j / g) + r : ℕ) : ℚ) * ft) := by
  intro n
  induction n with
  | zero => intro t; simp [frame_times_loop]
  | succ m ih =>
    intro t
    have hchunk : ((List.range (r + g)).map (fun k : ℕ => t + (k : ℚ) * ft)).drop r
        = (List.range g).map (fun j => t + ((r + j : ℕ) : ℚ) * ft) := by
      rw [List.range_add, List.map_append, List.drop_left' (by simp),
        List.map_map]
      simp [Function.comp]
    have hmul : (m + 1) * g = g + m * g := by ring
    simp only [frame_times_loop]
    rw [hchunk, ih, hmul, List.range_add, List.map_append, List.map_map]
    congr 1
    · -- the kept chunk of the current integration
      refine List.map_congr_left ?_
      intro j hj
      have hj' : j < g := List.mem_range.mp hj
      have : j / g = 0 := Nat.div_eq_of_lt hj'
      rw [this]
      push_cast
      ring
    · -- the remaining integrations, one frame-chunk later
      refine List.map_congr_left ?_
      intro j _
      simp only [Function.comp]
      have hrg : 1 ≤ r + g := le_add_of_le_right hg
      have hcast : ((r + g - 1 : ℕ) : ℚ) = (r : ℚ) + g - 1 := by
        push_cast [Nat.cast_sub hrg]
        ring
      have hdiv : (g + j) / g = j / g + 1 := by
        rw [Nat.add_comm g j]
        exact Nat.add_div_right j hg
      rw [hcast, hdiv]
      push_cast
      ring

lemma get_frame_times_eq (subarray : String) (g n r : ℕ) (t0 : ℚ)
    (hsub : subarray ∈ SOSS_SUBARRAYS) (hg : 1 ≤ g) :
    get_frame_times subarray g n t0 r
      = (List.range (n * g)).map
          (fun j => t0 + ((j + r * (j / g) + r : ℕ) : ℚ) * FRAME_TIMES subarray) := by
  simp only [get_frame_times, if_pos hsub]
  exact frame_times_loop_eq g r (FRAME_TIMES subarray) hg n t0

lemma FRAME_TIMES_pos {subarray : String} (hsub : subarray ∈ SOSS_SUBARRAYS) :
    0 < FRAME_TIMES subarray := by
  fin_cases hsub
  · simp only [FRAME_TIMES]
    rw [if_neg (by decide)]
    norm_num
  · simp only [FRAME_TIMES]
    norm_num
  · simp only [FRAME_TIMES]
    rw [if_neg (by decide), if_neg (by decide)]
    norm_num

/-- C10: For the three SOSS subarrays, `ngrps >= 1`, `nints >= 1` and any
`nresets`, `get_frame_times` returns exactly `nints * ngrps` timestamps
(reset frames removed), strictly increasing, starting at
`t0 + nresets * frame_time`. -/
theorem get_frame_times_spec (subarray : String) (ngrps nints nresets : ℕ)
    (t0 : ℚ) (hsub : subarray ∈ SOSS_SUBARRAYS) (hg : 1 ≤ ngrps)
    (hn : 1 ≤ nints) :
    (get_frame_times subarray ngrps nints t0 nresets).length = nints * ngrps
    ∧ (get_frame_times subarray ngrps nints t0 nresets).Pairwise (· < ·)
    ∧ (get_frame_times subarray ngrps nints t0 nresets).head?
        = some (t0 + (nresets : ℚ) * FRAME_TIMES subarray) := by
  have hft : 0 < FRAME_TIMES subarray := FRAME_TIMES_pos hsub
  rw [get_frame_times_eq subarray ngrps nints nresets t0 hsub hg]
  refine ⟨by simp, ?_, ?_⟩
  · rw [List.pairwise_map]
    refine (List.pairwise_lt_range _).imp ?_
    intro a b hab
    have hidx : a + nresets * (a / ngrps) + nresets
        < b + nresets * (b / ngrps) + nresets := by
      have := Nat.div_le_div_right (c := ngrps) hab.le
      have := Nat.mul_le_mul_left nresets this
      omega
    have : ((a + nresets * (a / ngrps) + nresets : ℕ) : ℚ)
        < ((b + nresets * (b / ngrps) + nresets : ℕ) : ℚ) := by
      exact_mod_cast hidx
    nlinarith
  · have hpos : 0 < nints * ngrps := Nat.mul_pos hn hg
    obtain ⟨m, hm⟩ := Nat.exists_eq_succ_of_ne_zero (Nat.pos_iff_ne_zero.mp hpos)
    rw [hm, List.range_succ_eq_map]
    simp

/-- Witness for C10: SUBSTRIP256, 1 group, 1 integration, 1 reset frame. -/
theorem get_frame_times_spec_witness :
    (get_frame_times "SUBSTRIP256" 1 1 0 1).length = 1 * 1
    ∧ (get_frame_times "SUBSTRIP256" 1 1 0 1).Pairwise (· < ·)
    ∧ (get_frame_times "SUBSTRIP256" 1 1 0 1).head?
        = some (0 + (1 : ℚ) * FRAME_TIMES "SUBSTRIP256") :=
  get_frame_times_spec "SUBSTRIP256" 1 1 1 0 (by decide) le_rfl le_rfl

/-- The multiplier list of the rate-to-counts step of
`awesimsoss run_simulation`: `ft = np.tile(self.time[:self.ngrps],
self.nints)` — the first `ngrps` exposure timestamps, tiled over the
integrations. -/
def frame_time_multiplier (time : List ℚ) (ngrps nints : ℕ) : List ℚ :=
  (List.range nints).flatMap (fun _ => time.take ngrps)

/-- The rate-to-counts step of `awesimsoss run_simulation`
(`psfs *= ft[:, None, None, None]`): every frame of the per-group stack is
scaled by the matching entry of the tiled multiplier list. -/
def frame_time_scaling (time : List ℚ) (ngrps nints : ℕ)
    (frames : List (List ℚ)) : List (List ℚ) :=
  List.zipWith (fun fr m => fr.map (· * m))
    frames (frame_time_multiplier time ngrps nints)

lemma FRAME_TIMES_substrip256 : FRAME_TIMES "SUBSTRIP256" = 5491 / 1000 := by
  simp only [FRAME_TIMES]
  rw [if_neg (by decide)]
  norm_num

/-- C7 counterexample: with SUBSTRIP256, 2 groups, 1 integration and start
time 0, the two frames of a constant-1 stack are scaled by the exposure
timestamps 5.491 and 10.982 — not both by the frame integration time
5.491 as the claim states. -/
theorem frame_scaling_not_constant_frame_time :
    frame_time_scaling (get_frame_times "SUBSTRIP256" 2 1 0 1) 2 1 [[1], [1]]
      = [[5491 / 1000], [5491 / 500]]
    ∧ ¬ frame_time_scaling (get_frame_times "SUBSTRIP256" 2 1 0 1) 2 1 [[1], [1]]
      = [[5491 / 1000], [5491 / 1000]] := by
  have htime : get_frame_times "SUBSTRIP256" 2 1 0 1 = [5491 / 1000, 5491 / 500] := by
    rw [get_frame_times_eq "SUBSTRIP256" 2 1 1 0 (by decide) (by norm_num)]
    norm_num [List.range_succ, FRAME_TIMES_substrip256]
  rw [frame_time_scaling, frame_time_multiplier, htime]
  norm_num [List.range_succ]

/-- C7 (amended): the per-wavelength count-rate series are converted to
counts by multiplying the group-`g` frame of every integration by the
exposure timestamp `time[g] = t0 + (g+1) * frame_time`, i.e. by the elapsed
(accumulated) exposure time at that group — the accumulated integration
time when `t0 = 0` — and not by the constant frame integration time. -/
theorem frame_time_scaling_timestamps (subarray : String) (ngrps nints : ℕ)
    (t0 : ℚ) (frames : List (List ℚ))
    (hsub : subarray ∈ SOSS_SUBARRAYS) (hg : 1 ≤ ngrps) (hn : 1 ≤ nints) :
    frame_time_scaling (get_frame_times subarray ngrps nints t0 1) ngrps nints
        frames
      = List.zipWith (fun fr m => fr.map (· * m)) frames
          ((List.range nints).flatMap (fun _ =>
            (List.range ngrps).map
              (fun g : ℕ => t0 + ((g : ℚ) + 1) * FRAME_TIMES subarray))) := by
  have htake : (get_frame_times subarray ngrps nints t0 1).take ngrps
      = (List.range ngrps).map
          (fun g : ℕ => t0 + ((g : ℚ) + 1) * FRAME_TIMES subarray) := by
    rw [get_frame_times_eq subarray ngrps nints 1 t0 hsub hg, ← List.map_take,
      List.take_range, Nat.min_eq_left (Nat.le_mul_of_pos_left ngrps hn)]
    refine List.map_congr_left ?_
    intro j hj
    have hj' : j < ngrps := List.mem_range.mp hj
    rw [Nat.div_eq_of_lt hj']
    push_cast
    ring
  rw [frame_time_scaling, frame_time_multiplier, htake]

/-- Witness for C7's amended theorem at the counterexample configuration. -/
theorem frame_time_scaling_timestamps_witness :
    frame_time_scaling (get_frame_times "SUBSTRIP256" 2 1 0 1) 2 1 [[1], [1]]
      = List.zipWith (fun fr m => fr.map (· * m)) [[1], [1]]
          ((List.range 1).flatMap (fun _ =>
            (List.range 2).map
              (fun g : ℕ => 0 + ((g : ℚ) + 1) * FRAME_TIMES "SUBSTRIP256"))) :=
  frame_time_scaling_timestamps "SUBSTRIP256" 2 1 0 [[1], [1]] (by decide)
    (by norm_num) (by norm_num)

/-- A 3-dimensional tensor (frames x rows x columns) of rationals, the
shape of `self.tso` when `add_refpix` runs inside `run_simulation`. -/
abbrev T3 := List (List (List ℚ))

/-- Numpy slice assignment `l[:k] = c`. -/
def overwriteFirst (k : ℕ) (c : ℚ) (l : List ℚ) : List ℚ :=
  (l.take k).map (fun _ => c) ++ l.drop k

/-- Numpy slice assignment `l[-k:] = c`. -/
def overwriteLast (k : ℕ) (c : ℚ) (l : List ℚ) : List ℚ :=
  l.take (l.length - k) ++ (l.drop (l.length - k)).map (fun _ => c)

/-- Numpy slice assignment `frame[-k:, :] = c` on a frame given as a list of
rows. -/
def overwriteLastRows (k : ℕ) (c : ℚ) (fr : List (List ℚ)) : List (List ℚ) :=
  fr.take (fr.length - k)
    ++ (fr.drop (fr.length - k)).map (fun row => row.map (fun _ => c))

/-- Embedding of `TSO.add_refpix`: in every frame, set the left 4 columns,
the right 4 columns and the top 4 rows to the constant `counts`. -/
def add_refpix (counts : ℚ) (tso : T3) : T3 :=
  tso.map (fun frame =>
    overwriteLastRows 4 counts
      (frame.map (fun row => overwriteLast 4 counts (overwriteFirst 4 counts row))))

/-- The module-level `SUBARRAY_Y` dictionary: detector rows per subarray. -/
def SUBARRAY_Y (s : String) : ℕ :=
  if s = "SUBSTRIP96" then 96 else if s = "SUBSTRIP256" then 256 else 2048

/-- The tail of `awesimsoss run_simulation` acting on `self.tso` after noise
injection: `add_refpix` followed, for SUBSTRIP96 only, by the trim of every
frame to the first `nrows` rows. -/
def refpix_then_trim (subarray : String) (nrows : ℕ) (counts : ℚ)
    (tso : T3) : T3 :=
  let t := add_refpix counts tso
  if subarray = "SUBSTRIP96" then t.map (fun fr => fr.take nrows) else t

lemma mem_take_overwriteFirst {k : ℕ} {c x : ℚ} {l : List ℚ}
    (hx : x ∈ (overwriteFirst k c l).take k) : x = c := by
  rw [overwriteFirst, List.take_append_eq_append_take] at hx
  rcases List.mem_append.mp hx with h | h
  · obtain ⟨-, -, h⟩ := List.mem_map.mp (List.mem_of_mem_take h)
    exact h.symm
  · rcases le_or_lt k l.length with hk | hk
    · have h0 : k - ((l.take k).map (fun _ => c)).length = 0 := by
        simp [List.length_take, Nat.min_eq_left hk]
      rw [h0, List.take_zero] at h
      simp at h
    · rw [List.drop_eq_nil_of_le hk.le] at h
      simp at h

lemma mem_take_overwriteLast_of {j k : ℕ} {c x : ℚ} {m : List ℚ}
    (hm : ∀ y ∈ m.take k, y = c)
    (hx : x ∈ (overwriteLast j c m).take k) : x = c := by
  rw [overwriteLast, List.take_append_eq_append_take] at hx
  rcases List.mem_append.mp hx with h | h
  · rw [List.take_take] at h
    refine hm x ?_
    have hmin : min k (m.length - j) ≤ k := Nat.min_le_left _ _
    have : m.take (min k (m.length - j)) = (m.take k).take (min k (m.length - j)) := by
      rw [List.take_take, Nat.min_eq_left hmin]
    rw [this] at h
    exact List.mem_of_mem_take h
  · obtain ⟨-, -, h⟩ := List.mem_map.mp (List.mem_of_mem_take h)
    exact h.symm

lemma length_overwriteLast {k : ℕ} {c : ℚ} {m : List ℚ} :
    (overwriteLast k c m).length = m.length := by
  simp only [overwriteLast, List.length_append, List.length_take,
    List.length_map, List.length_drop]
  omega

lemma mem_drop_overwriteLast {k : ℕ} {c x : ℚ} {m : List ℚ}
    (hx : x ∈ (overwriteLast k c m).drop ((overwriteLast k c m).length - k)) :
    x = c := by
  rw [length_overwriteLast, overwriteLast, List.drop_append_eq_append_drop] at hx
  rcases List.mem_append.mp hx with h | h
  · have : (m.take (m.length - k)).length ≤ m.length - k := by
      simp [List.length_take]
    rw [List.drop_eq_nil_of_le this] at h
    simp at h
  · obtain ⟨-, -, h⟩ := List.mem_map.mp (List.mem_of_mem_drop h)
    exact h.symm

lemma mem_overwriteLastRows {k : ℕ} {c : ℚ} {fr : List (List ℚ)}
    {row : List ℚ} (hrow : row ∈ overwriteLastRows k c fr) :
    row ∈ fr ∨ ∃ r ∈ fr, row = r.map (fun _ => c) := by
  rw [overwriteLastRows] at hrow
  rcases List.mem_append.mp hrow with h | h
  · exact Or.inl (List.mem_of_mem_take h)
  · obtain ⟨r, hr, hmap⟩ := List.mem_map.mp h
    exact Or.inr ⟨r, List.mem_of_mem_drop hr, hmap.symm⟩

lemma length_overwriteLastRows {k : ℕ} {c : ℚ} {fr : List (List ℚ)} :
    (overwriteLastRows k c fr).length = fr.length := by
  simp only [overwriteLastRows, List.length_append, List.length_take,
    List.length_map, List.length_drop]
  omega

lemma mem_drop_overwriteLastRows {k : ℕ} {c : ℚ} {fr : List (List ℚ)}
    {row : List ℚ}
    (hrow : row ∈ (overwriteLastRows k c fr).drop
      ((overwriteLastRows k c fr).length - k)) :
    ∀ x ∈ row, x = c := by
  rw [length_overwriteLastRows, overwriteLastRows,
    List.drop_append_eq_append_drop] at hrow
  rcases List.mem_append.mp hrow with h | h
  · have : (fr.take (fr.length - k)).length ≤ fr.length - k := by
      simp [List.length_take]
    rw [List.drop_eq_nil_of_le this] at h
    simp at h
  · obtain ⟨r, -, hmap⟩ := List.mem_map.mp (List.mem_of_mem_drop h)
    intro x hx
    rw [← hmap] at hx
    obtain ⟨-, -, h⟩ := List.mem_map.mp hx
    exact h.symm

lemma row_border_of_mem_add_refpix {counts : ℚ} {tso : T3}
    {fr : List (List ℚ)} {row : List ℚ}
    (hfr : fr ∈ add_refpix counts tso) (hrow : row ∈ fr) :
    (∀ x ∈ row.take 4, x = counts)
    ∧ (∀ x ∈ row.drop (row.length - 4), x = counts) := by
  obtain ⟨frame, -, hframe⟩ := List.mem_map.mp hfr
  rw [← hframe] at hrow
  rcases mem_overwriteLastRows hrow with h | ⟨r, -, hmap⟩
  · obtain ⟨r, -, hr⟩ := List.mem_map.mp h
    rw [← hr]
    constructor
    · intro x hx
      exact mem_take_overwriteLast_of (fun y hy => mem_take_overwriteFirst hy) hx
    · intro x hx
      exact mem_drop_overwriteLast hx
  · subst hmap
    constructor
    · intro x hx
      obtain ⟨-, -, h⟩ := List.mem_map.mp (List.mem_of_mem_take hx)
      exact h.symm
    · intro x hx
      obtain ⟨-, -, h⟩ := List.mem_map.mp (List.mem_of_mem_drop hx)
      exact h.symm

/-- C5 (amended): after the refpix-and-trim tail of `run_simulation`, the
left 4 and right 4 columns of every row of every final frame equal the
configured constant for every subarray; the top 4 rows equal the constant
for the untrimmed subarrays (SUBSTRIP256, FULL) — for SUBSTRIP96 the trim
applied after `add_refpix` removes the forced top rows, which is why that
conjunct carries the `subarray ≠ "SUBSTRIP96"` guard. -/
theorem add_refpix_border_policy (subarray : String) (counts : ℚ) (tso : T3) :
    (∀ fr ∈ refpix_then_trim subarray (SUBARRAY_Y subarray) counts tso,
       ∀ row ∈ fr, (∀ x ∈ row.take 4, x = counts)
         ∧ (∀ x ∈ row.drop (row.length - 4), x = counts))
    ∧ (subarray ≠ "SUBSTRIP96" →
       ∀ fr ∈ refpix_then_trim subarray (SUBARRAY_Y subarray) counts tso,
         ∀ row ∈ fr.drop (fr.length - 4), ∀ x ∈ row, x = counts) := by
  constructor
  · intro fr hfr row hrow
    rw [refpix_then_trim] at hfr
    split_ifs at hfr with hsub
    · obtain ⟨fr0, hfr0, hfr'⟩ := List.mem_map.mp hfr
      rw [← hfr'] at hrow
      exact row_border_of_mem_add_refpix hfr0 (List.mem_of_mem_take hrow)
    · exact row_border_of_mem_add_refpix hfr hrow
  · intro hsub fr hfr row hrow
    rw [refpix_then_trim, if_neg hsub] at hfr
    obtain ⟨frame, -, hframe⟩ := List.mem_map.mp hfr
    rw [← hframe] at hrow
    exact mem_drop_overwriteLastRows hrow

/-- Witness for C5's amended theorem: SUBSTRIP256 with a one-frame tensor. -/
theorem add_refpix_border_policy_witness :
    (∀ fr ∈ refpix_then_trim "SUBSTRIP256" (SUBARRAY_Y "SUBSTRIP256") 0
        [[[7, 7, 7, 7, 7]]],
       ∀ row ∈ fr, (∀ x ∈ row.take 4, x = (0 : ℚ))
         ∧ (∀ x ∈ row.drop (row.length - 4), x = (0 : ℚ)))
    ∧ ("SUBSTRIP256" ≠ "SUBSTRIP96" →
       ∀ fr ∈ refpix_then_trim "SUBSTRIP256" (SUBARRAY_Y "SUBSTRIP256") 0
           [[[7, 7, 7, 7, 7]]],
         ∀ row ∈ fr.drop (fr.length - 4), ∀ x ∈ row, x = (0 : ℚ)) :=
  add_refpix_border_policy "SUBSTRIP256" 0 [[[7, 7, 7, 7, 7]]]

/-- The constant-signal SUBSTRIP96 tensor used to refute C5 as stated: one
frame of 256 rows by 2048 columns, every pixel 7. -/
def cex_tensor : T3 := [List.replicate 256 (List.replicate 2048 (7 : ℚ))]

/-- C5 counterexample: for SUBSTRIP96 the frames are trimmed to 96 rows
after `add_refpix` forced rows 252-255, so the top 4 rows of the final
frames keep their signal/noise content (here the value 7, not the
configured constant 0). -/
theorem refpix_substrip96_top_rows_not_forced :
    ∃ fr ∈ refpix_then_trim "SUBSTRIP96" (SUBARRAY_Y "SUBSTRIP96") 0 cex_tensor,
      ∃ row ∈ fr.drop (fr.length - 4), ∃ x ∈ row, x ≠ (0 : ℚ) := by
  have hy : SUBARRAY_Y "SUBSTRIP96" = 96 := by simp [SUBARRAY_Y]
  have hrowline : overwriteFirst 4 0 (List.replicate 2048 (7 : ℚ))
      = List.replicate 4 0 ++ List.replicate 2044 7 := by
    rw [overwriteFirst, List.take_replicate, List.drop_replicate,
      List.map_replicate]
    norm_num
  set R : List ℚ :=
    overwriteLast 4 0 (overwriteFirst 4 0 (List.replicate 2048 (7 : ℚ))) with hR
  have h7 : (7 : ℚ) ∈ R := by
    rw [hR, overwriteLast, hrowline]
    refine List.mem_append.mpr (Or.inl ?_)
    have hlen : (List.replicate 4 (0 : ℚ) ++ List.replicate 2044 7).length = 2048 := by
      rw [List.length_append, List.length_replicate, List.length_replicate]
    rw [hlen]
    rw [List.take_append_eq_append_take, List.take_replicate]
    refine List.mem_append.mpr (Or.inr ?_)
    rw [List.length_replicate, List.take_replicate]
    norm_num
  have hframe : add_refpix 0 cex_tensor
      = [List.replicate 252 R ++ List.replicate 4 (R.map (fun _ => 0))] := by
    rw [add_refpix, cex_tensor]
    simp only [List.map_cons, List.map_nil, List.map_replicate]
    rw [overwriteLastRows, List.length_replicate, List.take_replicate,
      List.drop_replicate, List.map_replicate]
    norm_num
  have htrim : refpix_then_trim "SUBSTRIP96" (SUBARRAY_Y "SUBSTRIP96") 0 cex_tensor
      = [List.replicate 96 R] := by
    rw [refpix_then_trim, if_pos rfl, hframe, hy]
    simp only [List.map_cons, List.map_nil]
    rw [List.take_append_eq_append_take, List.take_replicate,
      List.length_replicate]
    norm_num
  rw [htrim]
  refine ⟨List.replicate 96 R, by simp, R, ?_, 7, h7, by norm_num⟩
  rw [List.length_replicate, List.drop_replicate]
  simp

/-- `darksignal[np.where(darksignal < 0.)] = 0.` — negative entries of the
dark-current baseline are clamped to zero. -/
def clamp_neg (l : List ℚ) : List ℚ := l.map (fun x => if x < 0 then 0 else x)

/-- Numpy block assignment `tso[i : i + len(blk)] = blk`. -/
def writeBlock {α : Type} (tso : List α) (i : ℕ) (blk : List α) : List α :=
  tso.take i ++ blk ++ tso.drop (i + blk.length)

/-- The integration loop of `add_noise`: for `n = 0, 1, ..., nints-1` in
order, write the ramp of integration `n` into the slots
`tso[ngrps*n : ngrps*(n+1)]`. -/
def noiseWrites {α : Type} (ramp : ℕ → List α) (ngrps : ℕ) (tso : List α) :
    ℕ → List α
  | 0 => tso
  | k + 1 => writeBlock (noiseWrites ramp ngrps tso k) (ngrps * k) (ramp k)

/-- Embedding of `TSO.add_noise` (awesimsoss module, lines 439-488).  The
frame type `F` and the reference-data types are abstract, and the four
`generate_darks` helpers — external collaborators living in the sibling
`generate_darks` module — are function parameters applied exactly as at
their call sites: the dark baseline is the reference dark signal scaled by
the gain with negatives clamped to zero, `RAMP` is built once from it, and
each integration applies, to a fresh copy of that same `RAMP`, first
`add_signal` (with the zodiacal background and its scale factor), then
`non_linearity`, then `add_pedestal`, writing the result into that
integration's group slots of `tso`. -/
def add_noise_model {F Y Z N P : Type} (ngrps nints : ℕ)
    (gain zodi_scale offset frame_time : ℚ) (darksignal_raw : List ℚ)
    (pyf : Y) (zodi : Z) (nonlinearity : N) (pedestal : P)
    (make_exposure : List ℚ → ℚ → ℚ → List F)
    (add_signal : List F → List F → Y → ℚ → ℚ → Z → ℚ → List F)
    (non_linearity : List F → N → ℚ → List F)
    (add_pedestal : List F → P → ℚ → List F)
    (tso_ideal tso : List F) : List F :=
  let darksignal := clamp_neg (darksignal_raw.map (· * gain))
  let RAMP := make_exposure darksignal gain offset
  noiseWrites
    (fun n => add_pedestal
      (non_linearity
        (add_signal ((tso_ideal.drop (ngrps * n)).take ngrps) RAMP pyf
          frame_time gain zodi zodi_scale)
        nonlinearity offset)
      pedestal offset)
    ngrps tso nints

lemma length_flatMap_ramp {α : Type} (ramp : ℕ → List α) (g : ℕ) :
    ∀ (k : ℕ), (∀ n < k, (ramp n).length = g) →
      ((List.range k).flatMap ramp).length = g * k := by
  intro k
  induction k with
  | zero => intro _; simp
  | succ m ih =>
    intro h
    rw [List.range_succ, List.flatMap_append, List.length_append,
      ih (fun n hn => h n (Nat.lt_succ_of_lt hn))]
    simp [h m (Nat.lt_succ_self m)]
    ring

lemma noiseWrites_eq_flatMap {α : Type} (ramp : ℕ → List α) (g : ℕ) :
    ∀ (k : ℕ) (tso : List α), (∀ n < k, (ramp n).length = g) →
      g * k ≤ tso.length →
      noiseWrites ramp g tso k
        = (List.range k).flatMap ramp ++ tso.drop (g * k) := by
  intro k
  induction k with
  | zero => intro tso _ _; simp [noiseWrites]
  | succ m ih =>
    intro tso hr hlen
    have hm : g * m ≤ tso.length := by
      calc g * m ≤ g * (m + 1) := Nat.mul_le_mul_left g (Nat.le_succ m)
        _ ≤ tso.length := hlen
    rw [noiseWrites, ih tso (fun n hn => hr n (Nat.lt_succ_of_lt hn)) hm,
      writeBlock]
    have hfm : ((List.range m).flatMap ramp).length = g * m :=
      length_flatMap_ramp ramp g m (fun n hn => hr n (Nat.lt_succ_of_lt hn))
    have htake : (((List.range m).flatMap ramp) ++ tso.drop (g * m)).take (g * m)
        = (List.range m).flatMap ramp := List.take_left' hfm
    have hdrop : (((List.range m).flatMap ramp) ++ tso.drop (g * m)).drop
          (g * m + (ramp m).length)
        = tso.drop (g * (m + 1)) := by
      rw [hr m (Nat.lt_succ_self m), ← hfm,
        List.drop_append_eq_append_drop,
        List.drop_eq_nil_of_le (Nat.le_add_right _ _),
        List.nil_append, Nat.add_sub_cancel_left, List.drop_drop]
      congr 1
      rw [hfm]
      ring
    rw [htake, hdrop, List.range_succ, List.flatMap_append]
    simp [List.append_assoc]

/-- C6: `add_noise` builds one dark-ramp baseline per run — the reference
dark signal scaled by the gain, negatives clamped to zero, passed once to
`make_exposure` — and the resulting `tso` is exactly the concatenation over
integrations `n` of the pipeline `add_pedestal (non_linearity (add_signal
(ideal slice n) RAMP ...))`: each integration applies signal addition (with
the zodiacal term), then non-linearity, then pedestal, to a fresh copy of
the same static baseline, and writes the result into its own group slots;
slot `n` of the output depends on nothing but slice `n` of the ideal tensor
and the static baseline, so no state is carried between integrations. -/
theorem add_noise_per_integration {F Y Z N P : Type} (ngrps nints : ℕ)
    (gain zodi_scale offset frame_time : ℚ) (darksignal_raw : List ℚ)
    (pyf : Y) (zodi : Z) (nonlinearity : N) (pedestal : P)
    (make_exposure : List ℚ → ℚ → ℚ → List F)
    (add_signal : List F → List F → Y → ℚ → ℚ → Z → ℚ → List F)
    (non_linearity : List F → N → ℚ → List F)
    (add_pedestal : List F → P → ℚ → List F)
    (tso_ideal tso : List F)
    (hlen : ∀ n < nints,
      (add_pedestal
        (non_linearity
          (add_signal ((tso_ideal.drop (ngrps * n)).take ngrps)
            (make_exposure (clamp_neg (darksignal_raw.map (· * gain))) gain
              offset) pyf frame_time gain zodi zodi_scale)
          nonlinearity offset)
        pedestal offset).length = ngrps)
    (htso : tso.length = ngrps * nints) :
    add_noise_model ngrps nints gain zodi_scale offset frame_time
        darksignal_raw pyf zodi nonlinearity pedestal make_exposure add_signal
        non_linearity add_pedestal tso_ideal tso
      = (List.range nints).flatMap (fun n =>
          add_pedestal
            (non_linearity
              (add_signal ((tso_ideal.drop (ngrps * n)).take ngrps)
                (make_exposure (clamp_neg (darksignal_raw.map (· * gain)))
                  gain offset) pyf frame_time gain zodi zodi_scale)
              nonlinearity offset)
            pedestal offset) := by
  rw [add_noise_model]
  rw [noiseWrites_eq_flatMap _ ngrps nints tso hlen (le_of_eq htso.symm)]
  rw [List.drop_eq_nil_of_le (le_of_eq htso), List.append_nil]

/-- Witness for C6 with one group per ramp, two integrations, and concrete
instantiations of the `generate_darks` collaborators. -/
theorem add_noise_per_integration_witness :
    add_noise_model (F := ℚ) (Y := Unit) (Z := Unit) (N := Unit) (P := Unit)
        1 2 1 1 500 1 [] () () () ()
        (fun _ _ _ => [0]) (fun a _ _ _ _ _ _ => a) (fun a _ _ => a)
        (fun a _ _ => a) [10, 20] [0, 0]
      = (List.range 2).flatMap (fun n =>
          (fun a _ _ => a)
            ((fun a _ _ => a)
              ((fun (a : List ℚ) (_ : List ℚ) (_ : Unit) (_ _ : ℚ) (_ : Unit)
                  (_ : ℚ) => a)
                (([10, 20].drop (1 * n)).take 1)
                ((fun _ _ _ => ([0] : List ℚ)) (clamp_neg ([].map (· * 1))) 1 500)
                () 1 1 () 1)
              () 500)
            () 500) :=
  add_noise_per_integration 1 2 1 1 500 1 [] () () () ()
    (fun _ _ _ => [0]) (fun a _ _ _ _ _ _ => a) (fun a _ _ => a)
    (fun a _ _ => a) [10, 20] [0, 0] (by decide) (by decide)

/-- The physical dimension of an astropy unit, as exponents of
(length, mass, time); `is_equivalent` compares dimensions, which is what
astropy's `Unit.is_equivalent` does with no extra equivalencies. -/
structure PhysUnit where
  length : ℤ
  mass : ℤ
  time : ℤ
deriving DecidableEq

/-- `astropy.units.um`: a length. -/
def micron_unit : PhysUnit := ⟨1, 0, 0⟩

/-- `erg/s/cm^2/AA` (F_lambda): energy flux density per unit wavelength,
dimension mass * time^-3 * length^-1. -/
def flam_unit : PhysUnit := ⟨-1, 1, -3⟩

/-- `Unit.is_equivalent`: convertible iff the dimensions agree. -/
def is_equivalent (u v : PhysUnit) : Bool := decide (u = v)

/-- One element of the `star` argument: an astropy quantity array (unit and
values) or a bare array without units. -/
inductive StarElem where
  | quantity (unit : PhysUnit) (values : List ℚ)
  | bare (values : List ℚ)
deriving DecidableEq

instance : Inhabited StarElem := ⟨.bare []⟩

def StarElem.isQuantity : StarElem → Bool
  | .quantity _ _ => true
  | .bare _ => false

def StarElem.unitOf : StarElem → PhysUnit
  | .quantity u _ => u
  | .bare _ => ⟨0, 0, 0⟩

/-- The `star` argument of `TSO.__init__`: a python list/tuple of arrays,
or any non-sequence value. -/
inductive StarArg where
  | seq (elems : List StarElem)
  | notSeq
deriving DecidableEq

/-- Embedding of `TSO._check_star` (awesimsoss module, lines 162-192), with
the four checks in source order: sequence of length 2 or 3, all elements
astropy quantities, first element convertible to microns, remaining
elements convertible to F_lambda; on success the star is stored. -/
def check_star : StarArg → Except String (List StarElem)
  | .notSeq => .error "Star input must be a sequence of W F or W F E"
  | .seq star =>
    if ¬ (star.length = 2 ∨ star.length = 3) then
      .error "Star input must be a sequence of W F or W F E"
    else if ¬ (∀ e ∈ star, e.isQuantity = true) then
      .error "Spectrum must be in astropy units"
    else if ¬ (is_equivalent star.headI.unitOf micron_unit = true) then
      .error "Wavelength must be in units of distance"
    else if ¬ (∀ e ∈ star.tail, is_equivalent e.unitOf flam_unit = true) then
      .error "Flux density must be in units of F_lambda"
    else .ok star

/-- The condition under which `_check_star` accepts its argument. -/
def IsValidStar : StarArg → Prop
  | .notSeq => False
  | .seq star => (star.length = 2 ∨ star.length = 3)
      ∧ (∀ e ∈ star, e.isQuantity = true)
      ∧ is_equivalent star.headI.unitOf micron_unit = true
      ∧ (∀ e ∈ star.tail, is_equivalent e.unitOf flam_unit = true)

instance : DecidablePred IsValidStar := fun a =>
  match a with
  | .seq star => inferInstanceAs (Decidable ((star.length = 2 ∨ star.length = 3)
      ∧ (∀ e ∈ star, e.isQuantity = true)
      ∧ is_equivalent star.headI.unitOf micron_unit = true
      ∧ (∀ e ∈ star.tail, is_equivalent e.unitOf flam_unit = true)))
  | .notSeq => inferInstanceAs (Decidable False)

/-- An all-zero frames x rows x cols tensor, `np.zeros(dims)`; the 4D
`(nints, ngrps, rows, cols)` tensors of the source are kept in their
equivalent flattened `(nints*ngrps, rows, cols)` form, which is the shape
`run_simulation` actually works with until its final reshape (a pure view
change). -/
def zeros3 (frames rows cols : ℕ) : T3 :=
  List.replicate frames (List.replicate rows (List.replicate cols (0 : ℚ)))

/-- Elementwise tensor addition, `a += b` on equal-shape numpy arrays. -/
def addT3 (x y : T3) : T3 :=
  List.zipWith (fun p q => List.zipWith (fun r s => List.zipWith (· + ·) r s) p q) x y

/-- `np.sum(stack, axis=0)` over a nonempty list of equal-shape tensors. -/
def sumT3 : List T3 → T3
  | [] => []
  | t :: ts => ts.foldl addT3 t

/-- `list(set(orders))` for orders drawn from {1, 2}: CPython iterates a set
of small ints in numeric order. -/
def py_set_orders (orders : List ℕ) : List ℕ :=
  (if 1 ∈ orders then [1] else []) ++ (if 2 ∈ orders then [2] else [])

/-- `str.upper()` on ASCII strings. -/
def py_upper (s : String) : String := String.mk (s.toList.map Char.toUpper)

/-- Substring test used for `'F277W' in filt.upper()`. -/
def str_contains (needle haystack : String) : Bool :=
  (List.range (haystack.toList.length + 1)).any
    (fun i => decide (((haystack.toList.drop i).take needle.toList.length)
      = needle.toList))

/-- The state of an `awesimsoss.TSO` object: the configuration fixed at
initialization plus the four output tensors mutated by `run_simulation`. -/
structure TSOState where
  subarray : String
  nrows : ℕ
  ncols : ℕ
  ngrps : ℕ
  nints : ℕ
  filter : String
  orders : List ℕ
  star : List StarElem
  planet : Bool
  tmodel : Bool
  tso : T3
  tso_ideal : T3
  tso_order1_ideal : T3
  tso_order2_ideal : T3
deriving DecidableEq

/-- Embedding of `TSO.__init__` (awesimsoss module): `_check_star` runs
first; then the orders are checked against {1, 2} (TypeError otherwise),
deduplicated, and silently restricted to `[1]` when the filter is F277W;
the zero-filled output tensors are allocated only after every check has
passed. -/
def tso_init (ngrps nints : ℕ) (star : StarArg) (filt subarr : String)
    (orders : List ℕ) : Except String TSOState :=
  match check_star star with
  | .error e => .error e
  | .ok st =>
    if ¬ (∀ o ∈ orders, o = 1 ∨ o = 2) then
      .error "Order must be either an int float or list thereof"
    else
      let ords := py_set_orders orders
      let ords2 := if filt = "F277W" then [1] else ords
      .ok { subarray := subarr, nrows := SUBARRAY_Y subarr, ncols := 2048,
            ngrps := ngrps, nints := nints, filter := filt, orders := ords2,
            star := st, planet := false, tmodel := false,
            tso := zeros3 (nints * ngrps) (SUBARRAY_Y subarr) 2048,
            tso_ideal := zeros3 (nints * ngrps) (SUBARRAY_Y subarr) 2048,
            tso_order1_ideal := zeros3 (nints * ngrps) (SUBARRAY_Y subarr) 2048,
            tso_order2_ideal := zeros3 (nints * ngrps) (SUBARRAY_Y subarr) 2048 }

/-- The "Clear previous results" block at the top of `run_simulation`
(awesimsoss module, lines 254-258): all four output tensors are reset to
zero-filled tensors of the configured dimensions. -/
def clear_outputs (s : TSOState) : TSOState :=
  { s with tso := zeros3 (s.nints * s.ngrps) s.nrows s.ncols,
           tso_ideal := zeros3 (s.nints * s.ngrps) s.nrows s.ncols,
           tso_order1_ideal := zeros3 (s.nints * s.ngrps) s.nrows s.ncols,
           tso_order2_ideal := zeros3 (s.nints * s.ngrps) s.nrows s.ncols }

/-- `setattr(self, 'tso_order{}_ideal'.format(order), ...)`. -/
def set_order_tensor (s : TSOState) (o : ℕ) (t : T3) : TSOState :=
  if o = 1 then { s with tso_order1_ideal := t }
  else if o = 2 then { s with tso_order2_ideal := t } else s

/-- `getattr(self, 'tso_order{}_ideal'.format(order))`. -/
def order_tensor (s : TSOState) (o : ℕ) : T3 :=
  if o = 1 then s.tso_order1_ideal else s.tso_order2_ideal

/-- The SUBSTRIP96 trim at the end of `run_simulation`: every frame of all
four tensors is cut down to the first `nrows` rows. -/
def trim96 (s : TSOState) : TSOState :=
  { s with tso := s.tso.map (fun fr => fr.take s.nrows),
           tso_ideal := s.tso_ideal.map (fun fr => fr.take s.nrows),
           tso_order1_ideal := s.tso_order1_ideal.map (fun fr => fr.take s.nrows),
           tso_order2_ideal := s.tso_order2_ideal.map (fun fr => fr.take s.nrows) }

/-- The accepted `time_unit` values of `run_simulation`. -/
def TIME_UNITS : List String := ["seconds", "minutes", "hours", "days"]

/-- The per-order synthesis and merge of `run_simulation` after the planet
block: for each configured order, build the order's ideal tensor (the
psf-lightcurve / frame-assembly pipeline of the external `make_trace`
module, abstracted as `orderF`), sum the per-order tensors into
`tso_ideal`, copy it into `tso` and run the noise model (abstracted as the
deterministic `noiseF`), apply `add_refpix`, and trim for SUBSTRIP96. -/
def run_core (orderF : ℕ → T3) (noiseF : T3 → T3) (s : TSOState) : TSOState :=
  let s := s.orders.foldl (fun acc o => set_order_tensor acc o (orderF o)) s
  let s := { s with tso_ideal := sumT3 (s.orders.map (order_tensor s)) }
  let s := { s with tso := noiseF s.tso_ideal }
  let s := { s with tso := add_refpix 0 s.tso }
  if s.subarray = "SUBSTRIP96" then trim96 s else s

/-- Embedding of `TSO.run_simulation` (awesimsoss module) for the state
fields it mutates.  The outputs are cleared first; with a planet and a
transit model, an invalid `time_unit` then raises a ValueError — after the
clearing, so the mutated (zeroed) tensors survive the exception, which the
pair-with-error-message return models; otherwise the planet configuration
is stored and the per-order synthesis runs. -/
def run_simulation (orderF : ℕ → T3) (noiseF : T3 → T3)
    (planet tmodel : Bool) (time_unit : String) (s : TSOState) :
    TSOState × Option String :=
  let s := clear_outputs s
  if planet = true ∧ tmodel = true ∧ time_unit ∉ TIME_UNITS then
    (s, some "time_unit must be either seconds minutes hours or days")
  else
    let s := if planet = true ∧ tmodel = true then
        { s with planet := true, tmodel := true } else s
    (run_core orderF noiseF s, none)

/-- The state of a legacy `AWESim_SOSS.sim2D.TSO` object: the four output
tensors mutated by its `run_simulation`. -/
structure TSO2D where
  tso : T3
  tso_ideal : T3
  tso_order1 : T3
  tso_order2 : T3
deriving DecidableEq

/-- Embedding of the legacy sim2D `TSO.run_simulation` (no-planet path) for
the state fields it mutates.  Unlike the awesimsoss version it does NOT
clear the previous outputs: each order's tensor is accumulated into the
existing `self.tso` with `+=`, `tso_ideal` is then a copy of `tso`, and
with `noise=True` the noise model overwrites `tso`. -/
def run_simulation_2D (orderF : ℕ → T3) (noiseF : TSO2D → T3)
    (orders : List ℕ) (filt : String) (noise : Bool) (s : TSO2D) : TSO2D :=
  let ords := py_set_orders orders
  let ords := if str_contains "F277W" (py_upper filt) then [1] else ords
  let s := ords.foldl (fun acc o =>
    let t := orderF o
    let acc := { acc with tso := addT3 acc.tso t }
    if o = 1 then { acc with tso_order1 := t }
    else if o = 2 then { acc with tso_order2 := t } else acc) s
  let s := { s with tso_ideal := s.tso }
  if noise then { s with tso := noiseF s } else s

/-- The configuration fields of a `TSOState` that `run_simulation` reads
but never writes (in the no-planet path). -/
def meta (s : TSOState) :=
  (s.subarray, s.nrows, s.ncols, s.ngrps, s.nints, s.filter, s.orders,
    s.star, s.planet, s.tmodel)

lemma meta_clear (s : TSOState) : meta (clear_outputs s) = meta s := rfl

lemma meta_trim (s : TSOState) : meta (trim96 s) = meta s := rfl

lemma meta_set_order_tensor (s : TSOState) (o : ℕ) (t : T3) :
    meta (set_order_tensor s o t) = meta s := by
  rw [set_order_tensor]
  split_ifs <;> rfl

lemma meta_fold (f : ℕ → T3) : ∀ (os : List ℕ) (s : TSOState),
    meta (os.foldl (fun acc o => set_order_tensor acc o (f o)) s) = meta s := by
  intro os
  induction os with
  | nil => intro s; rfl
  | cons o tl ih =>
    intro s
    rw [List.foldl_cons, ih, meta_set_order_tensor]

lemma meta_run_core (orderF : ℕ → T3) (noiseF : T3 → T3) (s : TSOState) :
    meta (run_core orderF noiseF s) = meta s := by
  unfold run_core
  dsimp only
  split_ifs with h
  · rw [meta_trim]
    exact meta_fold orderF s.orders s
  · exact meta_fold orderF s.orders s

lemma meta_run (orderF : ℕ → T3) (noiseF : T3 → T3) (u : String)
    (s : TSOState) :
    meta ((run_simulation orderF noiseF false false u s).1) = meta s := by
  unfold run_simulation
  rw [if_neg (by simp), if_neg (by simp)]
  exact (meta_run_core orderF noiseF (clear_outputs s)).trans (meta_clear s)

lemma clear_outputs_eq_of_meta {s t : TSOState} (h : meta s = meta t) :
    clear_outputs s = clear_outputs t := by
  cases s
  cases t
  simp only [meta, Prod.mk.injEq] at h
  obtain ⟨h1, h2, h3, h4, h5, h6, h7, h8, h9, h10⟩ := h
  simp_all [clear_outputs]

lemma run_eq_of_meta (orderF : ℕ → T3) (noiseF : T3 → T3) (u : String)
    {s t : TSOState} (h : meta s = meta t) :
    run_simulation orderF noiseF false false u s
      = run_simulation orderF noiseF false false u t := by
  unfold run_simulation
  rw [clear_outputs_eq_of_meta h]

/-- C3 (amended): the awesimsoss `run_simulation` clears all four output
tensors on entry and recomputes them from the (unchanged) configuration, so
a second call with identical inputs and the same deterministic collaborators
reproduces the first call's tensors exactly — no accumulation across calls.
(The legacy sim2D version violates this; see its counterexample.) -/
theorem run_simulation_recompute_idempotent (orderF : ℕ → T3)
    (noiseF : T3 → T3) (time_unit : String) (s : TSOState) :
    ((run_simulation orderF noiseF false false time_unit
        ((run_simulation orderF noiseF false false time_unit s).1)).1).tso
      = ((run_simulation orderF noiseF false false time_unit s).1).tso
    ∧ ((run_simulation orderF noiseF false false time_unit
        ((run_simulation orderF noiseF false false time_unit s).1)).1).tso_ideal
      = ((run_simulation orderF noiseF false false time_unit s).1).tso_ideal
    ∧ ((run_simulation orderF noiseF false false time_unit
        ((run_simulation orderF noiseF false false time_unit s).1)).1).tso_order1_ideal
      = ((run_simulation orderF noiseF false false time_unit s).1).tso_order1_ideal
    ∧ ((run_simulation orderF noiseF false false time_unit
        ((run_simulation orderF noiseF false false time_unit s).1)).1).tso_order2_ideal
      = ((run_simulation orderF noiseF false false time_unit s).1).tso_order2_ideal := by
  have h := run_eq_of_meta orderF noiseF time_unit
    (meta_run orderF noiseF time_unit s)
  rw [h]
  exact ⟨rfl, rfl, rfl, rfl⟩

/-- C3 counterexample: the legacy sim2D `run_simulation` accumulates into
the existing `self.tso`, so calling it twice on a fresh object with the
same one-pixel order signal leaves `tso_ideal` at twice the single-call
value instead of reproducing it. -/
theorem run_simulation_2D_accumulates :
    (run_simulation_2D (fun _ => [[[1]]]) (fun _ => []) [1] "CLEAR" false
        (run_simulation_2D (fun _ => [[[1]]]) (fun _ => []) [1] "CLEAR" false
          ⟨[[[0]]], [[[0]]], [[[0]]], [[[0]]]⟩)).tso_ideal = [[[2]]]
    ∧ (run_simulation_2D (fun _ => [[[1]]]) (fun _ => []) [1] "CLEAR" false
        ⟨[[[0]]], [[[0]]], [[[0]]], [[[0]]]⟩).tso_ideal = [[[1]]]
    ∧ ¬ ([[[2]]] : T3) = [[[1]]] := by
  have hfilt : str_contains "F277W" (py_upper "CLEAR") = false := by decide
  refine ⟨?_, ?_, by norm_num⟩
  · norm_num [run_simulation_2D, py_set_orders, addT3, hfilt]
  · norm_num [run_simulation_2D, py_set_orders, addT3, hfilt]

/-- C9 (amended): with a planet and transit model but an invalid
`time_unit`, `run_simulation` raises the validation error before any
simulation computation (no per-order synthesis, no noise) — but only after
the output tensors have been cleared, so on error the tensors hold zeros of
the configured dimensions, not their prior contents. -/
theorem run_simulation_invalid_time_unit_state (orderF : ℕ → T3)
    (noiseF : T3 → T3) (time_unit : String) (s : TSOState)
    (h : time_unit ∉ TIME_UNITS) :
    run_simulation orderF noiseF true true time_unit s
      = (clear_outputs s,
         some "time_unit must be either seconds minutes hours or days")
    ∧ (clear_outputs s).tso = zeros3 (s.nints * s.ngrps) s.nrows s.ncols
    ∧ (clear_outputs s).tso_ideal = zeros3 (s.nints * s.ngrps) s.nrows s.ncols
    ∧ (clear_outputs s).tso_order1_ideal
        = zeros3 (s.nints * s.ngrps) s.nrows s.ncols
    ∧ (clear_outputs s).tso_order2_ideal
        = zeros3 (s.nints * s.ngrps) s.nrows s.ncols := by
  refine ⟨?_, rfl, rfl, rfl, rfl⟩
  unfold run_simulation
  rw [if_pos ⟨rfl, rfl, h⟩]

/-- A state with prior, nonzero output tensors, used to refute C9 as
stated. -/
def prior_state : TSOState :=
  { subarray := "SUBSTRIP256", nrows := 1, ncols := 1, ngrps := 1,
    nints := 1, filter := "CLEAR", orders := [1], star := [],
    planet := false, tmodel := false, tso := [[[5]]], tso_ideal := [[[5]]],
    tso_order1_ideal := [[[5]]], tso_order2_ideal := [[[5]]] }

/-- C9 counterexample: calling `run_simulation` with planet and transit
model but `time_unit = "fortnights"` raises the validation error, yet the
output tensors do NOT retain their prior contents — they have already been
zeroed. -/
theorem run_simulation_invalid_time_unit_clears :
    ((run_simulation (fun _ => [[[1]]]) (fun t => t) true true "fortnights"
        prior_state).2).isSome = true
    ∧ (run_simulation (fun _ => [[[1]]]) (fun t => t) true true "fortnights"
        prior_state).1.tso_ideal = [[[0]]]
    ∧ prior_state.tso_ideal = [[[5]]]
    ∧ ¬ (run_simulation (fun _ => [[[1]]]) (fun t => t) true true "fortnights"
        prior_state).1.tso_ideal = prior_state.tso_ideal := by decide

/-- Witness for C9's amended theorem at the counterexample input. -/
theorem run_simulation_invalid_time_unit_state_witness :
    run_simulation (fun _ => [[[1]]]) (fun t => t) true true "fortnights"
        prior_state
      = (clear_outputs prior_state,
         some "time_unit must be either seconds minutes hours or days")
    ∧ (clear_outputs prior_state).tso
        = zeros3 (prior_state.nints * prior_state.ngrps) prior_state.nrows
            prior_state.ncols
    ∧ (clear_outputs prior_state).tso_ideal
        = zeros3 (prior_state.nints * prior_state.ngrps) prior_state.nrows
            prior_state.ncols
    ∧ (clear_outputs prior_state).tso_order1_ideal
        = zeros3 (prior_state.nints * prior_state.ngrps) prior_state.nrows
            prior_state.ncols
    ∧ (clear_outputs prior_state).tso_order2_ideal
        = zeros3 (prior_state.nints * prior_state.ngrps) prior_state.nrows
            prior_state.ncols :=
  run_simulation_invalid_time_unit_state (fun _ => [[[1]]]) (fun t => t)
    "fortnights" prior_state (by decide)

/-- Every entry of the tensor is zero. -/
def allZero3 (t : T3) : Prop := ∀ fr ∈ t, ∀ row ∈ fr, ∀ x ∈ row, x = 0

lemma allZero3_zeros3 (a b c : ℕ) : allZero3 (zeros3 a b c) := by
  intro fr hfr row hrow x hx
  rw [List.eq_of_mem_replicate hfr] at hrow
  rw [List.eq_of_mem_replicate hrow] at hx
  exact List.eq_of_mem_replicate hx

lemma allZero3_map_take {t : T3} (h : allZero3 t) (n : ℕ) :
    allZero3 (t.map (fun fr => fr.take n)) := by
  intro fr hfr row hrow x hx
  obtain ⟨fr0, hfr0, hfr'⟩ := List.mem_map.mp hfr
  rw [← hfr'] at hrow
  exact h fr0 hfr0 row (List.mem_of_mem_take hrow) x hx

lemma check_star_eq_ok {star : List StarElem} (h : IsValidStar (.seq star)) :
    check_star (.seq star) = .ok star := by
  obtain ⟨h1, h2, h3, h4⟩ := h
  simp only [check_star]
  rw [if_neg (not_not_intro h1), if_neg (not_not_intro h2),
    if_neg (not_not_intro h3), if_neg (not_not_intro h4)]

lemma isValidStar_of_check_star_ok {arg : StarArg} {l : List StarElem}
    (h : check_star arg = .ok l) : IsValidStar arg ∧ arg = .seq l := by
  cases arg with
  | notSeq => simp [check_star] at h
  | seq star =>
    simp only [check_star] at h
    split_ifs at h with h1 h2 h3 h4
    all_goals first
      | exact Except.noConfusion h
      | (have hl : star = l := by simpa using h
         subst hl
         exact ⟨⟨h1, h2, h3, h4⟩, rfl⟩)

lemma tso_init_eq_ok {ngrps nints : ℕ} {star : List StarElem}
    {filt subarr : String} {orders : List ℕ}
    (hstar : IsValidStar (.seq star)) (ho : ∀ o ∈ orders, o = 1 ∨ o = 2) :
    tso_init ngrps nints (.seq star) filt subarr orders
      = .ok { subarray := subarr, nrows := SUBARRAY_Y subarr, ncols := 2048,
              ngrps := ngrps, nints := nints, filter := filt,
              orders := if filt = "F277W" then [1] else py_set_orders orders,
              star := star, planet := false, tmodel := false,
              tso := zeros3 (nints * ngrps) (SUBARRAY_Y subarr) 2048,
              tso_ideal := zeros3 (nints * ngrps) (SUBARRAY_Y subarr) 2048,
              tso_order1_ideal := zeros3 (nints * ngrps) (SUBARRAY_Y subarr) 2048,
              tso_order2_ideal := zeros3 (nints * ngrps) (SUBARRAY_Y subarr) 2048 } := by
  unfold tso_init
  rw [check_star_eq_ok hstar]
  dsimp only
  rw [if_neg (not_not_intro ho)]

/-- C8: `TSO` initialization succeeds exactly when the star argument is a 2-
or 3-element sequence of astropy quantities whose first element is
convertible to microns and whose remaining elements are convertible to
F_lambda; on success the validated star is stored and the output tensors
are the freshly allocated zero tensors, and on failure the error is raised
before any output tensor exists (the `Except` carries no state). -/
theorem tso_init_star_validation (ngrps nints : ℕ) (arg : StarArg)
    (filt subarr : String) (orders : List ℕ)
    (ho : ∀ o ∈ orders, o = 1 ∨ o = 2) :
    ((∃ st, tso_init ngrps nints arg filt subarr orders = .ok st)
      ↔ IsValidStar arg)
    ∧ (∀ st, tso_init ngrps nints arg filt subarr orders = .ok st →
        arg = .seq st.star
        ∧ st.tso = zeros3 (nints * ngrps) (SUBARRAY_Y subarr) 2048
        ∧ st.tso_ideal = zeros3 (nints * ngrps) (SUBARRAY_Y subarr) 2048
        ∧ st.tso_order1_ideal = zeros3 (nints * ngrps) (SUBARRAY_Y subarr) 2048
        ∧ st.tso_order2_ideal
            = zeros3 (nints * ngrps) (SUBARRAY_Y subarr) 2048) := by
  constructor
  · constructor
    · rintro ⟨st, hst⟩
      unfold tso_init at hst
      cases hc : check_star arg with
      | error e => rw [hc] at hst; simp at hst
      | ok l => exact (isValidStar_of_check_star_ok hc).1
    · intro hvalid
      cases arg with
      | notSeq => exact absurd hvalid (by simp [IsValidStar])
      | seq star => exact ⟨_, tso_init_eq_ok hvalid ho⟩
  · intro st hst
    unfold tso_init at hst
    cases hc : check_star arg with
    | error e => rw [hc] at hst; simp at hst
    | ok l =>
      rw [hc] at hst
      dsimp only at hst
      rw [if_neg (not_not_intro ho)] at hst
      obtain ⟨hvalid, harg⟩ := isValidStar_of_check_star_ok hc
      have hrec := (Except.ok.injEq _ _).mp hst
      rw [← hrec]
      exact ⟨harg, rfl, rfl, rfl, rfl⟩

/-- A well-formed star argument: wavelengths in microns, flux in F_lambda. -/
def valid_star : StarArg :=
  .seq [.quantity micron_unit [1], .quantity flam_unit [2]]

/-- Witness for C8: concrete valid star, concrete configuration. -/
theorem tso_init_star_validation_witness :
    ((∃ st, tso_init 1 1 valid_star "CLEAR" "SUBSTRIP256" [1] = .ok st)
      ↔ IsValidStar valid_star)
    ∧ (∀ st, tso_init 1 1 valid_star "CLEAR" "SUBSTRIP256" [1] = .ok st →
        valid_star = .seq st.star
        ∧ st.tso = zeros3 (1 * 1) (SUBARRAY_Y "SUBSTRIP256") 2048
        ∧ st.tso_ideal = zeros3 (1 * 1) (SUBARRAY_Y "SUBSTRIP256") 2048
        ∧ st.tso_order1_ideal = zeros3 (1 * 1) (SUBARRAY_Y "SUBSTRIP256") 2048
        ∧ st.tso_order2_ideal
            = zeros3 (1 * 1) (SUBARRAY_Y "SUBSTRIP256") 2048) :=
  tso_init_star_validation 1 1 valid_star "CLEAR" "SUBSTRIP256" [1] (by decide)

lemma order2_set_order_tensor (s : TSOState) (o : ℕ) (t : T3) (h : o ≠ 2) :
    (set_order_tensor s o t).tso_order2_ideal = s.tso_order2_ideal := by
  rw [set_order_tensor]
  split_ifs <;> rfl

lemma order2_fold (f : ℕ → T3) : ∀ (os : List ℕ) (s : TSOState),
    (∀ o ∈ os, o ≠ 2) →
    (os.foldl (fun acc o => set_order_tensor acc o (f o)) s).tso_order2_ideal
      = s.tso_order2_ideal := by
  intro os
  induction os with
  | nil => intro s _; rfl
  | cons o tl ih =>
    intro s h
    rw [List.foldl_cons, ih _ (fun o' ho' => h o' (by simp [ho']))]
    exact order2_set_order_tensor s o (f o) (h o (by simp))

lemma run_core_order2 (orderF : ℕ → T3) (noiseF : T3 → T3) (s : TSOState)
    (h2 : ∀ o ∈ s.orders, o ≠ 2) (hz : allZero3 s.tso_order2_ideal) :
    allZero3 ((run_core orderF noiseF s).tso_order2_ideal) := by
  unfold run_core
  dsimp only
  have hfold : (s.orders.foldl
      (fun acc o => set_order_tensor acc o (orderF o)) s).tso_order2_ideal
      = s.tso_order2_ideal := order2_fold orderF s.orders s h2
  split_ifs with h
  · rw [trim96]
    dsimp only
    rw [hfold]
    exact allZero3_map_take hz _
  · rw [hfold]
    exact hz

/-- C4: with the narrow-band filter F277W, initialization silently
restricts the order set to `[1]` (no error is raised for a `[1, 2]`
request), and after `run_simulation` the tensor of the disallowed order 2
is still identically zero. -/
theorem f277w_restricts_orders (ngrps nints : ℕ) (arg : StarArg)
    (subarr : String) (orders : List ℕ) (orderF : ℕ → T3) (noiseF : T3 → T3)
    (time_unit : String) (hstar : IsValidStar arg)
    (ho : ∀ o ∈ orders, o = 1 ∨ o = 2) :
    ∃ st, tso_init ngrps nints arg "F277W" subarr orders = .ok st
      ∧ st.orders = [1]
      ∧ allZero3 ((run_simulation orderF noiseF false false time_unit
          st).1.tso_order2_ideal) := by
  cases arg with
  | notSeq => exact absurd hstar (by simp [IsValidStar])
  | seq star =>
    refine ⟨_, tso_init_eq_ok hstar ho, by rw [if_pos rfl], ?_⟩
    unfold run_simulation
    rw [if_neg (by simp), if_neg (by simp)]
    dsimp only
    refine run_core_order2 orderF noiseF _ ?_ ?_
    · intro o ho'
      simp [clear_outputs] at ho'
      omega
    · simp only [clear_outputs]
      exact allZero3_zeros3 _ _ _

/-- Witness for C4: valid star, orders `[1, 2]`, SUBSTRIP256. -/
theorem f277w_restricts_orders_witness :
    ∃ st, tso_init 1 1 valid_star "F277W" "SUBSTRIP256" [1, 2] = .ok st
      ∧ st.orders = [1]
      ∧ allZero3 ((run_simulation (fun _ => [[[1]]]) (fun t => t) false false
          "days" st).1.tso_order2_ideal) :=
  f277w_restricts_orders 1 1 valid_star "SUBSTRIP256" [1, 2]
    (fun _ => [[[1]]]) (fun t => t) "days" (by decide) (by decide)

end AwesimSOSS
